import Mathlib

/-!
Shallow embedding of the artifact-resolution core of `renode-run`
(`src/renode_run/get.py`, together with the constants it imports from
`src/renode_run/defaults.py` and the variant enum from
`src/renode_run/utils.py`).

Modelling conventions:
* Filesystem paths are plain strings, joined with `/` exactly as
  `pathlib.Path.__truediv__` does for the well-formed relative/absolute
  names that occur here.
* The world visible to the two operations is a `World`: the set of
  existing filesystem paths, the parsed content of the resolution config
  file (`None` = the file does not exist), the result of `shutil.which`,
  the outcome of `urllib.request.urlretrieve` (the fetched archive, or a
  transport error), the temp-file name `urlretrieve` would use, and
  whether `tarfile.extractall` would succeed.
* `sys.exit`, raised exceptions and normal returns are the three
  constructors of `Outcome`; `print` calls that the claims talk about are
  recorded as `Event`s.
-/

/-- `renode_run.utils.RenodeVariant`: the closed enum of build flavours. -/
inductive RenodeVariant
  | MONO_PORTABLE
  | DOTNET_PORTABLE
deriving DecidableEq, Repr

/-- `RenodeVariant.value`: the string payload of each enum member. -/
def RenodeVariant.value : RenodeVariant → String
  | .MONO_PORTABLE => "mono-portable"
  | .DOTNET_PORTABLE => "dotnet-portable"

/-- `renode_run.defaults.RENODE_TARGET_DIRNAME`. -/
def RENODE_TARGET_DIRNAME : String := "renode-run.download"

/-- `renode_run.defaults.RENODE_RUN_CONFIG_FILENAME`. -/
def RENODE_RUN_CONFIG_FILENAME : String := "renode-run.json"

/-- `p / q` on `pathlib.Path` for a relative right operand. -/
def pathJoin (p q : String) : String := p ++ "/" ++ q

/-- Joining a possibly-empty relative suffix: `Path(*())` is `.`, so an
empty suffix denotes the directory itself. -/
def joinRel (p r : String) : String := if r = "" then p else pathJoin p r

/-- Split a character list at `/` separators (auxiliary for
`Path(...).parts`). -/
def splitSlash : List Char → List Char → List (List Char)
  | [], acc => [acc.reverse]
  | '/' :: rest, acc => acc.reverse :: splitSlash rest []
  | c :: rest, acc => splitSlash rest (c :: acc)

/-- Re-join path components with `/`. -/
def joinSlash : List (List Char) → List Char
  | [] => []
  | [p] => p
  | p :: rest => p ++ '/' :: joinSlash rest

/-- `Path(member.path).parts[1:]` re-joined: drop the first path
component of a relative path (tar member names are relative). Empty
components (duplicate or trailing slashes) are dropped, as
`pathlib.Path.parts` does. -/
def stripFirstComponent (s : String) : String :=
  String.mk (joinSlash (((splitSlash s.data []).filter (fun p => p ≠ [])).tail))

/-- `[0-9a-fA-F]` as a boolean character test. -/
def isHexDigitCh (c : Char) : Bool :=
  c.isDigit || (Nat.ble 97 c.toNat && Nat.ble c.toNat 102) || (Nat.ble 65 c.toNat && Nat.ble c.toNat 70)

/-- Match the pattern `[0-9]+\.[0-9]+\.[0-9]+\+[0-9]{8}git[0-9a-fA-F]{8,9}`
anchored at the head of the character list, returning the matched
characters. Greedy quantifiers need no backtracking here: each `[0-9]+`
is followed by a character that is not a digit, `[0-9]{8}` is fixed
width, and `[0-9a-fA-F]{8,9}` ends the pattern, so the greedy take of at
most nine hex digits is what Python's engine produces. -/
def matchVersionAt (cs : List Char) : Option (List Char) :=
  let s1 := cs.span Char.isDigit
  if s1.1 = [] then none else
  match s1.2 with
  | '.' :: r2 =>
    let s2 := r2.span Char.isDigit
    if s2.1 = [] then none else
    match s2.2 with
    | '.' :: r4 =>
      let s3 := r4.span Char.isDigit
      if s3.1 = [] then none else
      match s3.2 with
      | '+' :: r6 =>
        let date := r6.take 8
        if date.length = 8 ∧ date.all Char.isDigit then
          match r6.drop 8 with
          | 'g' :: 'i' :: 't' :: r8 =>
            let hex := (r8.takeWhile isHexDigitCh).take 9
            if 8 ≤ hex.length then
              some (s1.1 ++ '.' :: s2.1 ++ '.' :: s3.1 ++ '+' :: date ++ 'g' :: 'i' :: 't' :: hex)
            else none
          | _ => none
        else none
      | _ => none
    | _ => none
  | _ => none

/-- Leftmost search, as `re.search`: try every start position from the
left and return the first match. -/
def searchVersion : List Char → Option (List Char)
  | [] => none
  | c :: rest =>
    match matchVersionAt (c :: rest) with
    | some m => some m
    | none => searchVersion rest

/-- `re.search(r"[0-9]+\.[0-9]+\.[0-9]+\+[0-9]{8}git[0-9a-fA-F]{8,9}", s)`
followed by `.group(0)` (`get.py` line 72). -/
def versionSearch (s : String) : Option String :=
  (searchVersion s.data).map String.mk

/-- The parsed JSON config object: a key-ordered map from variant tag to
install-directory string, as a Python `dict` preserves insertion order. -/
abbrev Config := List (String × String)

/-- `dict.get`. -/
def lookupConfig : Config → String → Option String
  | [], _ => none
  | (k, v) :: rest, key => if k = key then some v else lookupConfig rest key

/-- `dict` assignment `config[key] = v`: an existing key keeps its
position and gets the new value; a new key is appended. -/
def updateConfig : Config → String → String → Config
  | [], key, v => [(key, v)]
  | (k, old) :: rest, key, v =>
    if k = key then (key, v) :: rest else (k, old) :: updateConfig rest key v

/-- Lookup through the optional config file (`none` = file absent). -/
def optLookup (c : Option Config) (key : String) : Option String :=
  match c with
  | none => none
  | some cfg => lookupConfig cfg key

/-- A tar archive: the ordered list of member names (`tar.getmembers()`
coincides with `tar.members`). -/
structure TarArchive where
  members : List String
deriving DecidableEq, Repr

/-- Outcome of `request.urlretrieve` (`get.py` lines 54-58). The source
catches only `error.HTTPError`; a non-HTTP `urllib.error.URLError`
(DNS failure, connection refused) is a distinct, uncaught case. -/
inductive FetchResult
  | httpError
  | urlError
  | fetched (tarOpt : Option TarArchive)
deriving DecidableEq, Repr

/-- The world state the resolver reads and writes. -/
structure World where
  /-- `sys.platform.startswith('linux')`. -/
  platformLinux : Bool
  /-- The set of paths that exist on disk. -/
  fs : List String
  /-- Parsed content of the resolution config file; `none` when the file
  does not exist. -/
  config : Option Config
  /-- `shutil.which("renode")`. -/
  whichRenode : Option String
  /-- `urlretrieve` result: `httpError` is a caught `error.HTTPError`;
  `urlError` is a non-HTTP `URLError` the source does not catch;
  `fetched none` is a fetched file that `tarfile.open` rejects;
  `fetched (some tar)` is a fetched, readable archive. -/
  fetchResult : FetchResult
  /-- The temporary file name `urlretrieve` stores the archive under. -/
  tempPath : String
  /-- Whether `tar.extractall` succeeds (filesystem errors otherwise). -/
  extractOk : Bool
deriving DecidableEq, Repr

/-- Raised exceptions distinguished by the model. `urlError` is the
uncaught non-HTTP `urllib.error.URLError` escaping `download_renode`. -/
inductive Err
  | notLinux
  | urlError
  | tarOpenError
  | indexError
  | extractError
deriving DecidableEq, Repr

/-- How a call ends: normal return, `sys.exit`, or a raised exception. -/
inductive Outcome (α : Type)
  | ok (a : α)
  | exited (code : Nat)
  | raised (e : Err)
deriving DecidableEq, Repr

/-- The observable prints the claims refer to. -/
inductive Event
  | cacheHit
  | staleEntry
  | systemLookup
  | downloadAttempt
  | failureReport
  | foundInPathMsg
  | httpErrorMsg
  | noVersionMsg
  | alreadyPresentMsg
  | extractedMsg
deriving DecidableEq, Repr

/-- Result of `download_renode`: how it ended, the updated world,
whether `extractall` ran, and the recorded prints. -/
structure DlResult where
  outcome : Outcome Unit
  world : World
  didExtract : Bool
  events : List Event
deriving DecidableEq, Repr

/-- The install destination (`get.py` lines 79-88): the target directory
itself in direct mode, else `target / variant.value / "renode-" ++ ver`. -/
def finalPathOf (target_dir_path : String) (renode_variant : RenodeVariant) (direct : Bool) (ver : String) : String :=
  if direct then target_dir_path
  else pathJoin target_dir_path (renode_variant.value ++ "/renode-" ++ ver)

/-- `renode_run.get.download_renode`. The `config_path` parameter is
represented by `World.config` (there is a single config file per world);
the `version` parameter only selects the remote archive name, which is
folded into `World.fetchResult`. A failing `extractall` is modelled as
adding no files. -/
def download_renode (w : World) (target_dir_path : String) (renode_variant : RenodeVariant) (direct : Bool) : DlResult :=
  if w.platformLinux = false then
    ⟨.raised .notLinux, w, false, []⟩
  else
    match w.fetchResult with
    | .httpError =>
      -- except error.HTTPError: connectivity message, sys.exit(1)
      ⟨.exited 1, w, false, [.httpErrorMsg]⟩
    | .urlError =>
      -- a non-HTTP URLError is NOT caught: it propagates with no message
      ⟨.raised .urlError, w, false, []⟩
    | .fetched tarOpt =>
      -- the fetched archive now sits at the temp path,
      -- and `os.makedirs(target_dir_path, exist_ok=True)` ran
      let fs2 := target_dir_path :: w.tempPath :: w.fs
      let body : DlResult :=
        match tarOpt with
        | none => ⟨.raised .tarOpenError, { w with fs := fs2 }, false, []⟩
        | some tar =>
          match tar.members with
          | [] => ⟨.raised .indexError, { w with fs := fs2 }, false, []⟩
          | m0 :: _ =>
            match versionSearch m0 with
            | none =>
              -- "Can't find proper renode version string in ..."; return
              ⟨.ok (), { w with fs := fs2 }, false, [.noVersionMsg]⟩
            | some renode_version =>
              let final_path := finalPathOf target_dir_path renode_variant direct renode_version
              if pathJoin final_path "renode" ∈ fs2 then
                -- "Renode is already present in ..."; return
                ⟨.ok (), { w with fs := fs2 }, false, [.alreadyPresentMsg]⟩
              else if w.extractOk = false then
                ⟨.raised .extractError, { w with fs := fs2 }, false, []⟩
              else
                let extracted := tar.members.map (fun m => joinRel final_path (stripFirstComponent m))
                let cfg2 := updateConfig (w.config.getD []) renode_variant.value final_path
                ⟨.ok (), { w with fs := fs2 ++ extracted, config := some cfg2 }, true, [.extractedMsg]⟩
      -- finally: os.remove(renode_package)
      ⟨body.outcome,
       { body.world with fs := body.world.fs.filter (fun p => p ≠ w.tempPath) },
       body.didExtract, body.events⟩

/-- Result of `get_renode`: how it ended, the updated world, and the
recorded prints. -/
structure GetResult where
  outcome : Outcome (Option String)
  world : World
  events : List Event
deriving DecidableEq, Repr

/-- Outcome of the config-file tier of `get_renode` (`get.py` lines
120-129). `found` is the early `return str(renode_path)` on a cache hit;
`missed` carries the value the Python variable `renode_path` holds after
the block: `none` when the file or the key is absent, `some ""` when the
stored value is the falsy empty string (the walrus assignment keeps it),
and `some (path ++ "/renode")` after a stale entry (the variable is not
reset — the source keeps the stale path). -/
inductive ConfigTier
  | found (p : String) (evs : List Event)
  | missed (rp : Option String) (evs : List Event)
deriving DecidableEq, Repr

/-- The events recorded by the config tier. -/
def ConfigTier.evs : ConfigTier → List Event
  | .found _ evs => evs
  | .missed _ evs => evs

/-- The config-file tier of `get_renode`. -/
def configTier (w : World) (variant : RenodeVariant) : ConfigTier :=
  match w.config with
  | none => .missed none []
  | some config =>
    match lookupConfig config variant.value with
    | none => .missed none []
    | some p =>
      if p = "" then .missed (some "") []
      else
        let renode_path := pathJoin p "renode"
        if renode_path ∈ w.fs then .found renode_path [.cacheHit]
        else .missed (some renode_path) [.staleEntry]

/-- `renode_run.get.get_renode`, with `try_to_download` embedded as a
download budget: the source's single recursive call passes
`try_to_download=False`, which is the `fuel = 0` instance here, and
`get_renode` below starts the budget at 1 for `try_to_download=True`.
All other lines follow `get.py` lines 117-155. -/
def get_renode_aux (fuel : Nat) (w : World) (artifacts_dir : String) (variant : RenodeVariant) (use_system_renode : Bool) : GetResult :=
  match configTier w variant with
  | .found p evs =>
    -- "Renode found in {renode_path}"; return str(renode_path)
    ⟨.ok (some p), w, evs⟩
  | .missed rp evs =>
    -- if use_system_renode: renode_path = which("renode")
    let afterWhich : Option String × List Event :=
      if use_system_renode then (w.whichRenode, evs ++ [.systemLookup]) else (rp, evs)
    match afterWhich.1 with
    | some renode_path =>
      -- "Renode found in $PATH: {renode_path} ..."; return renode_path
      ⟨.ok (some renode_path), w, afterWhich.2 ++ [.foundInPathMsg]⟩
    | none =>
      match fuel with
      | 0 =>
        -- "Renode not found, could not download. ..."; return None
        ⟨.ok none, w, afterWhich.2 ++ [.failureReport]⟩
      | n + 1 =>
        let r := download_renode w (pathJoin artifacts_dir RENODE_TARGET_DIRNAME) variant false
        match r.outcome with
        | .ok _ =>
          let retry := get_renode_aux n r.world artifacts_dir variant use_system_renode
          ⟨retry.outcome, retry.world, afterWhich.2 ++ [.downloadAttempt] ++ r.events ++ retry.events⟩
        | .exited c => ⟨.exited c, r.world, afterWhich.2 ++ [.downloadAttempt] ++ r.events⟩
        | .raised e => ⟨.raised e, r.world, afterWhich.2 ++ [.downloadAttempt] ++ r.events⟩

/-- `renode_run.get.get_renode` with the source's boolean parameters. -/
def get_renode (w : World) (artifacts_dir : String) (variant : RenodeVariant) (try_to_download use_system_renode : Bool) : GetResult :=
  get_renode_aux (cond try_to_download 1 0) w artifacts_dir variant use_system_renode

/-- Number of download attempts recorded in a trace. -/
def countD : List Event → Nat
  | [] => 0
  | .downloadAttempt :: rest => countD rest + 1
  | _ :: rest => countD rest

/-- A well-formed portable archive: the members of
`renode-<semver>+<date>git<sha>.linux-portable.tar.gz`. -/
def tarGood : TarArchive :=
  ⟨["renode-1.2.3+20240101git01234567/renode", "renode-1.2.3+20240101git01234567/lib/x"]⟩

/-- An archive whose first member name carries no version pattern. -/
def tarNoVer : TarArchive := ⟨["renode-1.0/renode", "renode-1.0/lib/x"]⟩

/-- A world with a valid cache entry for `mono-portable`. -/
def wCache : World :=
  ⟨true, ["/opt/renode/renode"], some [("mono-portable", "/opt/renode")], none, .httpError,
   "/tmp/renode.tar.gz", true⟩

/-- A world with a stale cache entry: the recorded directory no longer
holds the executable. -/
def wStale : World :=
  ⟨true, [], some [("mono-portable", "/opt/old")], none, .httpError, "/tmp/renode.tar.gz", true⟩

/-- An empty world: no config file, nothing on disk, no system renode. -/
def wEmpty : World := ⟨true, [], none, none, .httpError, "/tmp/renode.tar.gz", true⟩

/-- A world whose fetch succeeds but yields a file `tarfile.open` rejects. -/
def wBadTar : World := ⟨true, [], none, none, .fetched none, "/tmp/renode.tar.gz", true⟩

/-- A world whose fetch fails with a caught `HTTPError`. -/
def wHttp : World :=
  ⟨true, [], some [("mono-portable", "/opt/x")], none, .httpError, "/tmp/renode.tar.gz", true⟩

/-- A world whose fetch fails with a non-HTTP `URLError` (for example a
DNS failure), which the source does not catch. -/
def wUrlErr : World :=
  ⟨true, [], some [("mono-portable", "/opt/x")], none, .urlError, "/tmp/renode.tar.gz", true⟩

/-- A world fetching an archive without a version marker, with an
unrelated variant recorded in the config. -/
def wNoVer : World :=
  ⟨true, [], some [("dotnet-portable", "/opt/d")], none, .fetched (some tarNoVer),
   "/tmp/renode.tar.gz", true⟩

/-- A world with variant B (`dotnet-portable`) recorded, fetching a good
archive for variant A. -/
def wMerge : World :=
  ⟨true, [], some [("dotnet-portable", "/opt/dotnet")], none, .fetched (some tarGood),
   "/tmp/renode.tar.gz", true⟩

/-- A world where the computed destination of `tarGood` already holds the
executable and the config records it, plus an unrelated variant. -/
def wIdem : World :=
  ⟨true, ["/t/mono-portable/renode-1.2.3+20240101git01234567/renode"],
   some [("mono-portable", "/t/mono-portable/renode-1.2.3+20240101git01234567"),
         ("dotnet-portable", "/opt/dotnet")],
   none, .fetched (some tarGood), "/tmp/renode.tar.gz", true⟩

/-- A world where the computed destination of `tarGood` already holds the
executable but the config has no entry for the requested variant. -/
def wShort : World :=
  ⟨true, ["/t/mono-portable/renode-1.2.3+20240101git01234567/renode"],
   some [("dotnet-portable", "/opt/dotnet")], none, .fetched (some tarGood),
   "/tmp/renode.tar.gz", true⟩

/-- An empty world fetching a good archive (for direct-mode extraction). -/
def wDirect : World := ⟨true, [], none, none, .fetched (some tarGood), "/tmp/renode.tar.gz", true⟩

theorem countD_append : ∀ l1 l2 : List Event, countD (l1 ++ l2) = countD l1 + countD l2 := by
  intro l1 l2
  induction l1 with
  | nil => simp [countD]
  | cons e rest ih =>
    cases e <;> (simp [countD, ih]; try omega)

theorem configTier_evs_spec (w : World) (v : RenodeVariant) :
    (configTier w v).evs = [] ∨ (configTier w v).evs = [Event.cacheHit] ∨
      (configTier w v).evs = [Event.staleEntry] := by
  unfold configTier
  cases hc : w.config with
  | none => simp [ConfigTier.evs]
  | some cfg =>
    cases hl : lookupConfig cfg v.value with
    | none => simp [hl, ConfigTier.evs]
    | some p =>
      by_cases hp : p = ""
      · simp [hl, hp, ConfigTier.evs]
      · by_cases hx : pathJoin p "renode" ∈ w.fs <;> simp [hl, hp, hx, ConfigTier.evs]

theorem configTier_countD (w : World) (v : RenodeVariant) : countD (configTier w v).evs = 0 := by
  rcases configTier_evs_spec w v with h | h | h <;> simp [h, countD]

theorem configTier_no_failureReport (w : World) (v : RenodeVariant) :
    Event.failureReport ∉ (configTier w v).evs := by
  rcases configTier_evs_spec w v with h | h | h <;> simp [h]

theorem lookupConfig_update_self : ∀ (c : Config) (k v : String),
    lookupConfig (updateConfig c k v) k = some v := by
  intro c k v
  induction c with
  | nil => simp [updateConfig, lookupConfig]
  | cons kv rest ih =>
    obtain ⟨k1, v1⟩ := kv
    by_cases h : k1 = k <;> simp [updateConfig, lookupConfig, h, ih]

theorem lookupConfig_update_ne : ∀ (c : Config) (k v key : String), key ≠ k →
    lookupConfig (updateConfig c k v) key = lookupConfig c key := by
  intro c k v key hne
  induction c with
  | nil => simp [updateConfig, lookupConfig, Ne.symm hne]
  | cons kv rest ih =>
    obtain ⟨k1, v1⟩ := kv
    by_cases h : k1 = k
    · subst h
      simp [updateConfig, lookupConfig, Ne.symm hne]
    · simp [updateConfig, lookupConfig, h, ih]

theorem optLookup_getD (c : Option Config) (key : String) :
    optLookup c key = lookupConfig (c.getD []) key := by
  cases c <;> simp [optLookup, lookupConfig]

theorem download_config_cases (w : World) (t : String) (v : RenodeVariant) (d : Bool) :
    (download_renode w t v d).world.config = w.config ∨
    ∃ ver, (download_renode w t v d).world.config =
      some (updateConfig (w.config.getD []) v.value (finalPathOf t v d ver)) := by
  unfold download_renode
  by_cases hp : w.platformLinux = false
  · simp [hp]
  · simp only [hp, if_false]
    cases hf : w.fetchResult with
    | httpError => simp
    | urlError => simp
    | fetched tarOpt =>
      cases tarOpt with
      | none => simp
      | some tar =>
        cases hm : tar.members with
        | nil => simp [hm]
        | cons m0 rest =>
          simp only [hm]
          cases hv : versionSearch m0 with
          | none => simp
          | some ver =>
            by_cases hin : pathJoin (finalPathOf t v d ver) "renode" ∈ t :: w.tempPath :: w.fs
            · simp [hin]
            · by_cases he : w.extractOk = false
              · simp [hin, he]
              · right
                exact ⟨ver, by simp [hin, he]⟩

theorem download_events_spec (w : World) (t : String) (v : RenodeVariant) (d : Bool) :
    countD (download_renode w t v d).events = 0 ∧
      Event.failureReport ∉ (download_renode w t v d).events := by
  unfold download_renode
  by_cases hp : w.platformLinux = false
  · simp [hp, countD]
  · simp only [hp, if_false]
    cases hf : w.fetchResult with
    | httpError => simp [countD]
    | urlError => simp [countD]
    | fetched tarOpt =>
      cases tarOpt with
      | none => simp [countD]
      | some tar =>
        cases hm : tar.members with
        | nil => simp [hm, countD]
        | cons m0 rest =>
          simp only [hm]
          cases hv : versionSearch m0 with
          | none => simp [countD]
          | some ver =>
            by_cases hin : pathJoin (finalPathOf t v d ver) "renode" ∈ t :: w.tempPath :: w.fs
            · simp [hin, countD]
            · by_cases he : w.extractOk = false <;> simp [hin, he, countD]

theorem download_config_frame (w : World) (t : String) (v : RenodeVariant) (d : Bool)
    (key : String) (hk : key ≠ v.value) :
    optLookup (download_renode w t v d).world.config key = optLookup w.config key := by
  rcases download_config_cases w t v d with h | ⟨ver, h⟩
  · rw [h]
  · rw [h]
    simp only [optLookup]
    rw [lookupConfig_update_ne _ _ _ _ hk, ← optLookup_getD]
    rfl

theorem renodeExe_ne_target (t : String) (v : RenodeVariant) (d : Bool) (ver : String) :
    pathJoin (finalPathOf t v d ver) "renode" ≠ t := by
  intro h
  have hl := congrArg String.length h
  have e1 : "/".length = 1 := rfl
  have e2 : "renode".length = 6 := rfl
  have e3 : "/renode-".length = 8 := rfl
  cases d <;> simp [pathJoin, finalPathOf, String.length_append, e1, e2, e3] at hl <;> omega

theorem aux0_no_cacheHit (w : World) (a : String) (v : RenodeVariant) (us : Bool)
    (h : optLookup w.config v.value = none) :
    Event.cacheHit ∉ (get_renode_aux 0 w a v us).events := by
  have hct : configTier w v = .missed none [] := by
    unfold configTier
    cases hc : w.config with
    | none => rfl
    | some cfg =>
      rw [hc] at h
      simp only [optLookup] at h
      simp [h]
  unfold get_renode_aux
  rw [hct]
  cases us with
  | false => simp
  | true =>
    cases hw : w.whichRenode <;> simp [hw]

theorem get_renode_aux_spec (fuel : Nat) (w : World) (a : String) (v : RenodeVariant) (us : Bool) :
    countD (get_renode_aux fuel w a v us).events ≤ fuel ∧
      ((get_renode_aux fuel w a v us).outcome = .ok none →
        Event.failureReport ∈ (get_renode_aux fuel w a v us).events) := by
  induction fuel generalizing w with
  | zero =>
    unfold get_renode_aux
    cases hct : configTier w v with
    | found p evs =>
      have h0 : countD evs = 0 := by
        have hc := configTier_countD w v
        rw [hct] at hc
        exact hc
      simp [h0]
    | missed rp evs =>
      have h0 : countD evs = 0 := by
        have hc := configTier_countD w v
        rw [hct] at hc
        exact hc
      cases us with
      | false => cases rp <;> simp [countD_append, h0, countD]
      | true => cases hw : w.whichRenode <;> simp [hw, countD_append, h0, countD]
  | succ n ih =>
    unfold get_renode_aux
    cases hct : configTier w v with
    | found p evs =>
      have h0 : countD evs = 0 := by
        have hc := configTier_countD w v
        rw [hct] at hc
        exact hc
      simp [h0]
    | missed rp evs =>
      have h0 : countD evs = 0 := by
        have hc := configTier_countD w v
        rw [hct] at hc
        exact hc
      have hdl1 := (download_events_spec w (pathJoin a RENODE_TARGET_DIRNAME) v false).1
      have hr1 := (ih (download_renode w (pathJoin a RENODE_TARGET_DIRNAME) v false).world).1
      have hr2 := (ih (download_renode w (pathJoin a RENODE_TARGET_DIRNAME) v false).world).2
      cases us with
      | false =>
        cases rp with
        | some r => simp [countD_append, h0, countD]
        | none =>
          cases ho : (download_renode w (pathJoin a RENODE_TARGET_DIRNAME) v false).outcome with
          | ok u =>
            simp only [ho]
            constructor
            · simp [countD_append, h0, countD, hdl1]
              omega
            · intro hout
              exact List.mem_append.mpr (Or.inr (hr2 hout))
          | exited c =>
            simp only [ho]
            constructor
            · simp [countD_append, h0, countD, hdl1]
            · intro hout
              simp at hout
          | raised e =>
            simp only [ho]
            constructor
            · simp [countD_append, h0, countD, hdl1]
            · intro hout
              simp at hout
      | true =>
        cases hw : w.whichRenode with
        | some r => simp [hw, countD_append, h0, countD]
        | none =>
          simp only [hw]
          cases ho : (download_renode w (pathJoin a RENODE_TARGET_DIRNAME) v false).outcome with
          | ok u =>
            simp only [ho]
            constructor
            · simp [countD_append, h0, countD, hdl1]
              omega
            · intro hout
              exact List.mem_append.mpr (Or.inr (hr2 hout))
          | exited c =>
            simp only [ho]
            constructor
            · simp [countD_append, h0, countD, hdl1]
            · intro hout
              simp at hout
          | raised e =>
            simp only [ho]
            constructor
            · simp [countD_append, h0, countD, hdl1]
            · intro hout
              simp at hout

/-- Claim C1: for every artifacts directory whose config file contains an
entry for the requested variant whose recorded path, suffixed with
`renode`, exists on disk, `get_renode` returns that path immediately: no
download is performed and the system executable search path is not
consulted (the call leaves the world untouched and its only observable
output is the cache-hit message). -/
theorem get_renode_cache_hit (w : World) (a : String) (v : RenodeVariant)
    (td us : Bool) (cfg : Config) (p : String)
    (hc : w.config = some cfg) (hl : lookupConfig cfg v.value = some p) (hp : p ≠ "")
    (hx : pathJoin p "renode" ∈ w.fs) :
    (get_renode w a v td us).outcome = .ok (some (pathJoin p "renode")) ∧
    (get_renode w a v td us).world = w ∧
    (get_renode w a v td us).events = [Event.cacheHit] ∧
    Event.downloadAttempt ∉ (get_renode w a v td us).events ∧
    Event.systemLookup ∉ (get_renode w a v td us).events := by
  have hct : configTier w v = .found (pathJoin p "renode") [.cacheHit] := by
    unfold configTier
    rw [hc]
    simp [hl, hp, hx]
  unfold get_renode
  cases td <;> (unfold get_renode_aux; rw [hct]; simp)

/-- Witness for C1 at a concrete world. -/
theorem get_renode_cache_hit_witness :
    (get_renode wCache "/art" RenodeVariant.MONO_PORTABLE true true).outcome
        = .ok (some "/opt/renode/renode") ∧
    (get_renode wCache "/art" RenodeVariant.MONO_PORTABLE true true).world = wCache ∧
    (get_renode wCache "/art" RenodeVariant.MONO_PORTABLE true true).events = [Event.cacheHit] ∧
    Event.downloadAttempt ∉ (get_renode wCache "/art" RenodeVariant.MONO_PORTABLE true true).events ∧
    Event.systemLookup ∉ (get_renode wCache "/art" RenodeVariant.MONO_PORTABLE true true).events :=
  get_renode_cache_hit wCache "/art" RenodeVariant.MONO_PORTABLE true true
    [("mono-portable", "/opt/renode")] "/opt/renode" rfl rfl (by decide) (by decide)

/-- Claim C2 (code bug exhibit): with a config entry whose target was
deleted and the system lookup disabled, `get_renode` does not continue to
the download tier. The stale `renode_path` variable is never reset, so
the source returns the stale path (printing the found-in-PATH message)
and no download is attempted; with the system lookup enabled the same
world does proceed to the download tier. -/
theorem get_renode_stale_entry_code_behavior :
    (get_renode wStale "/art" RenodeVariant.MONO_PORTABLE true false).outcome
        = .ok (some "/opt/old/renode") ∧
    Event.downloadAttempt ∉ (get_renode wStale "/art" RenodeVariant.MONO_PORTABLE true false).events ∧
    Event.staleEntry ∈ (get_renode wStale "/art" RenodeVariant.MONO_PORTABLE true false).events ∧
    Event.foundInPathMsg ∈ (get_renode wStale "/art" RenodeVariant.MONO_PORTABLE true false).events ∧
    Event.downloadAttempt ∈ (get_renode wStale "/art" RenodeVariant.MONO_PORTABLE true true).events := by
  decide

/-- Claim C3: at most one download is attempted per invocation; with
downloading disabled none is attempted; and an invocation that ends with
no path found has printed the failure report (the retry after a download
runs with downloading disabled, so it cannot download again). -/
theorem get_renode_at_most_one_download (w : World) (a : String) (v : RenodeVariant)
    (td us : Bool) :
    countD (get_renode w a v td us).events ≤ 1 ∧
    (td = false → countD (get_renode w a v td us).events = 0) ∧
    ((get_renode w a v td us).outcome = .ok none →
      Event.failureReport ∈ (get_renode w a v td us).events) := by
  unfold get_renode
  refine ⟨?_, ?_, (get_renode_aux_spec (cond td 1 0) w a v us).2⟩
  · have h := (get_renode_aux_spec (cond td 1 0) w a v us).1
    have hc : cond td 1 0 ≤ 1 := by cases td <;> simp
    omega
  · intro htd
    subst htd
    have h := (get_renode_aux_spec (cond false 1 0) w a v us).1
    simpa using h

/-- Witness for C3 at a concrete world that ends in the failure report. -/
theorem get_renode_at_most_one_download_witness :
    countD (get_renode wEmpty "/art" RenodeVariant.MONO_PORTABLE false false).events ≤ 1 ∧
    countD (get_renode wEmpty "/art" RenodeVariant.MONO_PORTABLE false false).events = 0 ∧
    Event.failureReport ∈ (get_renode wEmpty "/art" RenodeVariant.MONO_PORTABLE false false).events := by
  obtain ⟨h1, h2, h3⟩ :=
    get_renode_at_most_one_download wEmpty "/art" RenodeVariant.MONO_PORTABLE false false
  exact ⟨h1, h2 rfl, h3 (by decide)⟩

/-- Claim C4: a successful (extracting) download for variant A merges its
entry into the config: with variant B already recorded, the resulting
config maps A to the install path and still maps B to its old path; and
no invocation of `download_renode` for A ever changes B's entry. -/
theorem download_renode_config_merge (w : World) (t : String) (v : RenodeVariant) (d : Bool)
    (tar : TarArchive) (m0 : String) (rest : List String) (ver : String)
    (cfg : Config) (B pB : String)
    (hlin : w.platformLinux = true) (hf : w.fetchResult = .fetched (some tar))
    (hm : tar.members = m0 :: rest) (hv : versionSearch m0 = some ver)
    (habs : pathJoin (finalPathOf t v d ver) "renode" ∉ w.fs)
    (hne : pathJoin (finalPathOf t v d ver) "renode" ≠ w.tempPath)
    (hext : w.extractOk = true)
    (hcfg : w.config = some cfg) (hB : lookupConfig cfg B = some pB) (hBv : B ≠ v.value) :
    optLookup (download_renode w t v d).world.config v.value = some (finalPathOf t v d ver) ∧
    optLookup (download_renode w t v d).world.config B = some pB ∧
    ∀ (w2 : World) (t2 : String) (d2 : Bool),
      optLookup (download_renode w2 t2 v d2).world.config B = optLookup w2.config B := by
  have hnotin : pathJoin (finalPathOf t v d ver) "renode" ∉ t :: w.tempPath :: w.fs := by
    simp [renodeExe_ne_target t v d ver, hne, habs]
  have hres : (download_renode w t v d).world.config
      = some (updateConfig (w.config.getD []) v.value (finalPathOf t v d ver)) := by
    unfold download_renode
    simp [hlin, hf, hm, hv, hnotin, hext]
  refine ⟨?_, ?_, ?_⟩
  · rw [hres]
    simp only [optLookup]
    exact lookupConfig_update_self _ _ _
  · rw [hres]
    simp only [optLookup]
    rw [lookupConfig_update_ne _ _ _ _ hBv, hcfg]
    simpa using hB
  · intro w2 t2 d2
    exact download_config_frame w2 t2 v d2 B hBv

/-- Witness for C4: downloading `mono-portable` with `dotnet-portable`
already recorded keeps both entries. -/
theorem download_renode_config_merge_witness :
    optLookup (download_renode wMerge "/t" RenodeVariant.MONO_PORTABLE false).world.config
        "mono-portable" = some "/t/mono-portable/renode-1.2.3+20240101git01234567" ∧
    optLookup (download_renode wMerge "/t" RenodeVariant.MONO_PORTABLE false).world.config
        "dotnet-portable" = some "/opt/dotnet" := by
  obtain ⟨h1, h2, h3⟩ := download_renode_config_merge wMerge "/t" RenodeVariant.MONO_PORTABLE false
    tarGood "renode-1.2.3+20240101git01234567/renode" ["renode-1.2.3+20240101git01234567/lib/x"]
    "1.2.3+20240101git01234567" [("dotnet-portable", "/opt/dotnet")] "dotnet-portable" "/opt/dotnet"
    rfl rfl rfl (by decide) (by decide) (by decide) rfl rfl (by decide) (by decide)
  exact ⟨h1, h2⟩

/-- Claim C5: when the computed destination already contains the
executable, `download_renode` returns normally, performs no extraction,
and leaves the config file unchanged (all variants' entries included). -/
theorem download_renode_idempotent (w : World) (t : String) (v : RenodeVariant) (d : Bool)
    (tar : TarArchive) (m0 : String) (rest : List String) (ver : String)
    (hlin : w.platformLinux = true) (hf : w.fetchResult = .fetched (some tar))
    (hm : tar.members = m0 :: rest) (hv : versionSearch m0 = some ver)
    (hpresent : pathJoin (finalPathOf t v d ver) "renode" ∈ w.fs) :
    (download_renode w t v d).outcome = .ok () ∧
    (download_renode w t v d).didExtract = false ∧
    (download_renode w t v d).world.config = w.config ∧
    Event.alreadyPresentMsg ∈ (download_renode w t v d).events := by
  have hin : pathJoin (finalPathOf t v d ver) "renode" ∈ t :: w.tempPath :: w.fs := by
    simp [hpresent]
  unfold download_renode
  simp [hlin, hf, hm, hv, hin]

/-- Witness for C5 at a concrete world with two recorded variants. -/
theorem download_renode_idempotent_witness :
    (download_renode wIdem "/t" RenodeVariant.MONO_PORTABLE false).outcome = .ok () ∧
    (download_renode wIdem "/t" RenodeVariant.MONO_PORTABLE false).didExtract = false ∧
    (download_renode wIdem "/t" RenodeVariant.MONO_PORTABLE false).world.config
        = some [("mono-portable", "/t/mono-portable/renode-1.2.3+20240101git01234567"),
                ("dotnet-portable", "/opt/dotnet")] ∧
    Event.alreadyPresentMsg ∈ (download_renode wIdem "/t" RenodeVariant.MONO_PORTABLE false).events :=
  download_renode_idempotent wIdem "/t" RenodeVariant.MONO_PORTABLE false tarGood
    "renode-1.2.3+20240101git01234567/renode" ["renode-1.2.3+20240101git01234567/lib/x"]
    "1.2.3+20240101git01234567" rfl rfl rfl (by decide) (by decide)

/-- Claim C6: once the fetch has succeeded, the temporary archive file is
absent from the filesystem when the operation ends, whichever branch
(success, unreadable tar, empty archive, missing version string, already
present, extraction error) it takes. -/
theorem download_renode_archive_cleanup (w : World) (t : String) (v : RenodeVariant)
    (d : Bool) (tarOpt : Option TarArchive)
    (hlin : w.platformLinux = true) (hf : w.fetchResult = .fetched tarOpt) :
    w.tempPath ∉ (download_renode w t v d).world.fs := by
  unfold download_renode
  simp [hlin, hf, List.mem_filter]

/-- Witness for C6 on the unreadable-archive failure path. -/
theorem download_renode_archive_cleanup_witness :
    "/tmp/renode.tar.gz" ∉ (download_renode wBadTar "/t" RenodeVariant.MONO_PORTABLE false).world.fs :=
  download_renode_archive_cleanup wBadTar "/t" RenodeVariant.MONO_PORTABLE false none rfl rfl

/-- Claim C7 (code bug exhibit): only the `HTTPError` half of the claim
holds. The source catches `error.HTTPError` alone, so an HTTP failure
exits with the connectivity message and an unchanged world — but a
non-HTTP `URLError` (DNS failure, connection refused) propagates as an
uncaught exception with no user-facing message, even though the
message's own text is about connectivity. The config is unchanged in
both cases. -/
theorem download_renode_transport_failure_behavior :
    (download_renode wHttp "/t" RenodeVariant.MONO_PORTABLE false).outcome = .exited 1 ∧
    (download_renode wHttp "/t" RenodeVariant.MONO_PORTABLE false).world = wHttp ∧
    Event.httpErrorMsg ∈ (download_renode wHttp "/t" RenodeVariant.MONO_PORTABLE false).events ∧
    (download_renode wUrlErr "/t" RenodeVariant.MONO_PORTABLE false).outcome = .raised .urlError ∧
    Event.httpErrorMsg ∉ (download_renode wUrlErr "/t" RenodeVariant.MONO_PORTABLE false).events ∧
    (download_renode wUrlErr "/t" RenodeVariant.MONO_PORTABLE false).events = [] ∧
    (download_renode wUrlErr "/t" RenodeVariant.MONO_PORTABLE false).world = wUrlErr := by
  decide

/-- Claim C8: when the first member's name carries no recognizable
version pattern, the operation stops there — it returns after the
message, extracts nothing, and leaves the config file unmodified. -/
theorem download_renode_no_version_aborts (w : World) (t : String) (v : RenodeVariant) (d : Bool)
    (tar : TarArchive) (m0 : String) (rest : List String)
    (hlin : w.platformLinux = true) (hf : w.fetchResult = .fetched (some tar))
    (hm : tar.members = m0 :: rest) (hv : versionSearch m0 = none) :
    (download_renode w t v d).outcome = .ok () ∧
    (download_renode w t v d).didExtract = false ∧
    (download_renode w t v d).world.config = w.config ∧
    Event.noVersionMsg ∈ (download_renode w t v d).events := by
  unfold download_renode
  simp [hlin, hf, hm, hv]

/-- Witness for C8. -/
theorem download_renode_no_version_aborts_witness :
    (download_renode wNoVer "/t" RenodeVariant.MONO_PORTABLE false).outcome = .ok () ∧
    (download_renode wNoVer "/t" RenodeVariant.MONO_PORTABLE false).didExtract = false ∧
    (download_renode wNoVer "/t" RenodeVariant.MONO_PORTABLE false).world.config
        = some [("dotnet-portable", "/opt/d")] ∧
    Event.noVersionMsg ∈ (download_renode wNoVer "/t" RenodeVariant.MONO_PORTABLE false).events :=
  download_renode_no_version_aborts wNoVer "/t" RenodeVariant.MONO_PORTABLE false tarNoVer
    "renode-1.0/renode" ["renode-1.0/lib/x"] rfl rfl rfl (by decide)

/-- Claim C9 counterexample: with the claim's archive (members
`renode-1.0/renode`, `renode-1.0/lib/x`) direct mode produces nothing —
the first member's name has no recognizable version string, so the
operation returns before extracting and neither `renode` nor `lib/x`
appears under the target directory. -/
theorem direct_extraction_claim_counterexample :
    (download_renode wNoVer "/t2" RenodeVariant.MONO_PORTABLE true).didExtract = false ∧
    "/t2/renode" ∉ (download_renode wNoVer "/t2" RenodeVariant.MONO_PORTABLE true).world.fs ∧
    "/t2/lib/x" ∉ (download_renode wNoVer "/t2" RenodeVariant.MONO_PORTABLE true).world.fs := by
  decide

/-- Claim C9 as amended: provided the first member's name contains a
recognizable version pattern (and extraction actually runs), direct mode
strips exactly one leading path component from every archive member, so
each member lands at `target / strippedName`. -/
theorem direct_extraction_strips_one_component (w : World) (t : String) (v : RenodeVariant)
    (tar : TarArchive) (m0 : String) (rest : List String) (ver : String)
    (hlin : w.platformLinux = true) (hf : w.fetchResult = .fetched (some tar))
    (hm : tar.members = m0 :: rest) (hv : versionSearch m0 = some ver)
    (habs : pathJoin t "renode" ∉ w.fs) (hne : pathJoin t "renode" ≠ w.tempPath)
    (hext : w.extractOk = true)
    (hnotemp : ∀ m ∈ tar.members, joinRel t (stripFirstComponent m) ≠ w.tempPath) :
    (download_renode w t v true).didExtract = true ∧
    ∀ m ∈ tar.members,
      joinRel t (stripFirstComponent m) ∈ (download_renode w t v true).world.fs := by
  have hra := renodeExe_ne_target t v true ver
  rw [show finalPathOf t v true ver = t from rfl] at hra
  have hnotin : pathJoin t "renode" ∉ t :: w.tempPath :: w.fs := by
    simp [hra, hne, habs]
  have hfs : (download_renode w t v true).world.fs
      = List.filter (fun p => p ≠ w.tempPath)
          ((t :: w.tempPath :: w.fs)
            ++ tar.members.map (fun m => joinRel t (stripFirstComponent m))) := by
    unfold download_renode
    simp [hlin, hf, hm, hv, hnotin, hext, finalPathOf]
  constructor
  · unfold download_renode
    simp [hlin, hf, hm, hv, hnotin, hext, finalPathOf]
  · intro m hmem
    rw [hfs, List.mem_filter]
    refine ⟨List.mem_append.mpr (Or.inr (List.mem_map_of_mem _ hmem)), ?_⟩
    simp [hnotemp m hmem]

/-- Witness for the amended C9: a version-named archive with members
`<top>/renode` and `<top>/lib/x` yields `/t/renode` and `/t/lib/x`. -/
theorem direct_extraction_strips_one_component_witness :
    (download_renode wDirect "/t" RenodeVariant.MONO_PORTABLE true).didExtract = true ∧
    "/t/renode" ∈ (download_renode wDirect "/t" RenodeVariant.MONO_PORTABLE true).world.fs ∧
    "/t/lib/x" ∈ (download_renode wDirect "/t" RenodeVariant.MONO_PORTABLE true).world.fs := by
  obtain ⟨h1, h2⟩ := direct_extraction_strips_one_component wDirect "/t"
    RenodeVariant.MONO_PORTABLE tarGood "renode-1.2.3+20240101git01234567/renode"
    ["renode-1.2.3+20240101git01234567/lib/x"] "1.2.3+20240101git01234567"
    rfl rfl rfl (by decide) (by decide) (by decide) rfl (by decide)
  refine ⟨h1, ?_, ?_⟩
  · have hx := h2 "renode-1.2.3+20240101git01234567/renode" (by decide)
    have he : joinRel "/t" (stripFirstComponent "renode-1.2.3+20240101git01234567/renode")
        = "/t/renode" := by decide
    rw [he] at hx
    exact hx
  · have hx := h2 "renode-1.2.3+20240101git01234567/lib/x" (by decide)
    have he : joinRel "/t" (stripFirstComponent "renode-1.2.3+20240101git01234567/lib/x")
        = "/t/lib/x" := by decide
    rw [he] at hx
    exact hx

/-- Claim C10: the already-installed short-circuit returns before the
config write, leaving the config file untouched; in particular, when the
config had no entry for the requested variant, none is added, and a
subsequent resolution (with downloading disabled) never takes the
cache-hit return for that variant. -/
theorem download_renode_short_circuit_no_config_write (w : World) (t : String)
    (v : RenodeVariant) (d : Bool)
    (tar : TarArchive) (m0 : String) (rest : List String) (ver : String)
    (hlin : w.platformLinux = true) (hf : w.fetchResult = .fetched (some tar))
    (hm : tar.members = m0 :: rest) (hv : versionSearch m0 = some ver)
    (hpresent : pathJoin (finalPathOf t v d ver) "renode" ∈ w.fs) :
    (download_renode w t v d).world.config = w.config ∧
    (download_renode w t v d).didExtract = false ∧
    (optLookup w.config v.value = none →
      optLookup (download_renode w t v d).world.config v.value = none ∧
      ∀ (a : String) (us : Bool),
        Event.cacheHit ∉ (get_renode (download_renode w t v d).world a v false us).events) := by
  have hin : pathJoin (finalPathOf t v d ver) "renode" ∈ t :: w.tempPath :: w.fs := by
    simp [hpresent]
  have hcfg : (download_renode w t v d).world.config = w.config := by
    unfold download_renode
    simp [hlin, hf, hm, hv, hin]
  have hdx : (download_renode w t v d).didExtract = false := by
    unfold download_renode
    simp [hlin, hf, hm, hv, hin]
  refine ⟨hcfg, hdx, fun hnone => ⟨by rw [hcfg]; exact hnone, fun a us => ?_⟩⟩
  exact aux0_no_cacheHit (download_renode w t v d).world a v us (by rw [hcfg]; exact hnone)

/-- Witness for C10: destination present, config lacking the variant —
the config stays without an entry and the retry misses the cache. -/
theorem download_renode_short_circuit_no_config_write_witness :
    (download_renode wShort "/t" RenodeVariant.MONO_PORTABLE false).world.config
        = some [("dotnet-portable", "/opt/dotnet")] ∧
    (download_renode wShort "/t" RenodeVariant.MONO_PORTABLE false).didExtract = false ∧
    optLookup (download_renode wShort "/t" RenodeVariant.MONO_PORTABLE false).world.config
        "mono-portable" = none ∧
    Event.cacheHit ∉ (get_renode (download_renode wShort "/t" RenodeVariant.MONO_PORTABLE false).world
        "/art" RenodeVariant.MONO_PORTABLE false true).events := by
  obtain ⟨h1, h2, h3⟩ := download_renode_short_circuit_no_config_write wShort "/t"
    RenodeVariant.MONO_PORTABLE false tarGood "renode-1.2.3+20240101git01234567/renode"
    ["renode-1.2.3+20240101git01234567/lib/x"] "1.2.3+20240101git01234567"
    rfl rfl rfl (by decide) (by decide)
  obtain ⟨h4, h5⟩ := h3 (by decide)
  exact ⟨h1, h2, h4, h5 "/art" true⟩
